import Mathlib

/-!
Verification of the CNKI indicators crawler (`main(单线程).py`) against its
specification.  The Python source is shallowly embedded below: strings are
`List Char`, the Playwright page is an explicit environment record, SQLite is a
list of records with the `UNIQUE` constraint modelled by `INSERT OR IGNORE`
semantics, and exceptions are `Except` / `Option` values.
-/

namespace Cnki

/-- The ASCII characters Python's `str.split` / `str.strip` treat as
whitespace (space, tab, newline, carriage return, vertical tab, form feed). -/
def pyIsSpace (c : Char) : Bool :=
  c = ' ' || c = '\t' || c = '\n' || c = '\r' || c = '\x0b' || c = '\x0c'

/-- Python `s.strip()`: drop leading and trailing whitespace. -/
def strip (l : List Char) : List Char :=
  ((l.dropWhile pyIsSpace).reverse.dropWhile pyIsSpace).reverse

/-- Negation of `pyIsSpace`, used to delimit words. -/
def notSpace (c : Char) : Bool := !(pyIsSpace c)

/-- Worker for `pySplit`: `cur` is the reversed word being read. -/
def pySplitAux : List Char → List Char → List (List Char)
  | [], cur => if cur.isEmpty then [] else [cur.reverse]
  | c :: rest, cur =>
    if pyIsSpace c then
      if cur.isEmpty then pySplitAux rest []
      else cur.reverse :: pySplitAux rest []
    else pySplitAux rest (c :: cur)

/-- Python `s.split()` with no argument: split on runs of whitespace,
discarding empty pieces. -/
def pySplit (l : List Char) : List (List Char) := pySplitAux l []

/-- Python `' '.join(ws)`: interleave single spaces between the pieces. -/
def joinSpace : List (List Char) → List Char
  | [] => []
  | [w] => w
  | w :: ws => w ++ ' ' :: joinSpace ws

/-- `get_clean_text` of the source (lines 143-145) applied to a cell's inner
text: `' '.join(text.split()).strip()`. -/
def get_clean_text (t : List Char) : List Char :=
  strip (joinSpace (pySplit t))

/-- The environment of the per-row download interception (source lines
160-167): whether the download event fires within the 5 s timeout and with
which URL (`none` models `expect_download` timing out or failing before
`download.url` is read), and whether `download.cancel()` succeeds (its failure
is caught after the URL was already stored). -/
structure DownloadEnv where
  event : Option (List Char)
  cancelOk : Bool
deriving DecidableEq, Repr

/-- One candidate `tbody > tr` element as the crawler observes it:
`bounding_box()` returns `none` or a box with a height, `query_selector_all`
on `td` yields the cells' `inner_text()` values, and the row may carry a
`.valueSearch_excel__3GKnk` download icon. -/
structure RowHandle where
  boundingBox : Option Rat
  cells : List (List Char)
  excelIcon : Option DownloadEnv
deriving DecidableEq, Repr

/-- `row_data` of the source (lines 147-156): one validated, extracted
record. -/
structure IndicatorRow where
  time : List Char
  region : List Char
  indicator : List Char
  value : List Char
  unit : List Char
  source : List Char
  page_no : List Char
  download_url : List Char
deriving DecidableEq, Repr

/-- The download-interception step (source lines 159-169).  Runs only when
`get_download_links` is set and the row has an excel icon; on
`expect_download` timeout or failure the exception is caught and the URL stays
empty; when the event fires, `row_data['download_url'] = download.url` happens
before `download.cancel()`, so a cancel failure (also caught) leaves the
captured URL in place. -/
def tryCapture (get_download_links : Bool) (r : RowHandle) : List Char :=
  if get_download_links then
    match r.excelIcon with
    | none => []
    | some d =>
      match d.event with
      | none => []
      | some u => u
  else []

/-- The per-row validation and extraction of the source (lines 126-171):
skip rows with no bounding box or zero height, rows with fewer than 8 `td`
cells, and rows whose 4th cell strips to empty; otherwise build `row_data`
(cells 1-7 cleaned with `get_clean_text`, the indicator taken as
`indicator_text.strip()`, the download URL from the interception step). -/
def validateRow (get_download_links : Bool) (r : RowHandle) : Option IndicatorRow :=
  match r.boundingBox with
  | none => none
  | some h =>
    if h = 0 then none
    else if r.cells.length < 8 then none
    else if strip (r.cells.getD 3 []) = [] then none
    else some
        { time := get_clean_text (r.cells.getD 1 [])
          region := get_clean_text (r.cells.getD 2 [])
          indicator := strip (r.cells.getD 3 [])
          value := get_clean_text (r.cells.getD 4 [])
          unit := get_clean_text (r.cells.getD 5 [])
          source := get_clean_text (r.cells.getD 6 [])
          page_no := get_clean_text (r.cells.getD 7 [])
          download_url := tryCapture get_download_links r }

/-- The per-page body of the scraping loop (lines 123-171): every candidate
row handle is validated in order and the validated rows are collected. -/
def processPage (get_download_links : Bool) (rows : List RowHandle) : List IndicatorRow :=
  rows.filterMap (validateRow get_download_links)

/-! ### The crawl loop (`crawl_cnki_indicators`, lines 87-181) -/

/-- The exceptions that can abort a task inside the page loop: `page.goto`
timing out on the first page, `wait_for_selector` timing out waiting for rows,
and `wait_for_load_state` timing out after clicking the next-page button.
(The sort-button step, lines 101-112, runs inside its own `try/except` and
can affect neither the rows nor control flow, so it is not modelled.) -/
inductive CrawlError where
  | navTimeout : CrawlError
  | rowTimeout : Nat → CrawlError
  | advanceTimeout : Nat → CrawlError
deriving DecidableEq, Repr

/-- The remote page as the loop observes it on iteration `page_num`:
whether the first navigation settles, whether an enabled `.btn-next` exists
when queried at iteration `page_num ≥ 1`, whether the post-click settlement
succeeds, whether `tbody > tr` rows appear within the 10 s wait, and the
candidate rows the page then exposes. -/
structure CrawlEnv where
  navOk : Bool
  hasNext : Nat → Bool
  advanceOk : Nat → Bool
  rowsAppear : Nat → Bool
  pageRows : Nat → List RowHandle

/-- The `for page_num in range(maxpages)` loop (lines 95-176), iterating with
`remaining` iterations left and `page_num` the current index.  A `.ok` result
carries the accumulated `all_rows` together with the number of pages whose
rows were collected; an exception (`.error`) carries no rows, exactly as the
Python exception propagates past `all_rows` (the `finally` on line 178 only
closes the browser). -/
def crawlPages (env : CrawlEnv) (g : Bool) :
    Nat → Nat → List IndicatorRow → Except CrawlError (List IndicatorRow × Nat)
  | 0, _, acc => .ok (acc, 0)
  | remaining + 1, page_num, acc =>
    if page_num = 0 then
      if env.navOk then
        if env.rowsAppear page_num then
          match crawlPages env g remaining (page_num + 1)
              (acc ++ processPage g (env.pageRows page_num)) with
          | .ok (rows, n) => .ok (rows, n + 1)
          | .error e => .error e
        else .error (.rowTimeout page_num)
      else .error .navTimeout
    else if env.hasNext page_num then
      if env.advanceOk page_num then
        if env.rowsAppear page_num then
          match crawlPages env g remaining (page_num + 1)
              (acc ++ processPage g (env.pageRows page_num)) with
          | .ok (rows, n) => .ok (rows, n + 1)
          | .error e => .error e
        else .error (.rowTimeout page_num)
      else .error (.advanceTimeout page_num)
    else .ok (acc, 0)

/-- `crawl_cnki_indicators(final_url, maxpages, get_download_links, sort_by)`:
run the page loop from page 0 with an empty `all_rows`. -/
def crawl_cnki_indicators (env : CrawlEnv) (maxpages : Nat) (g : Bool) :
    Except CrawlError (List IndicatorRow × Nat) :=
  crawlPages env g maxpages 0 []

/-! ### The SQLite sink (`setup_indicator_database`, `save_indicators_to_db`,
lines 12-84) -/

/-- A Python value as it can arrive in the `params` dict read from the Excel
sheet: missing (`None`), an `int`, a `bool` (a subclass of `int` in Python,
whose `str` form is `True`/`False`), a `str`, or anything else (e.g. a
float). -/
inductive PyVal where
  | none : PyVal
  | int : Int → PyVal
  | bool : Bool → PyVal
  | str : List Char → PyVal
  | other : PyVal
deriving DecidableEq, Repr

/-- Python `str(x)` for the values `isinstance(x, (int, str))` accepts. -/
def pyStr : PyVal → List Char
  | .int n => (toString n).data
  | .bool b => if b then "True".data else "False".data
  | .str s => s
  | .none => "None".data
  | .other => []

/-- Python `s.isdigit()` restricted to ASCII: nonempty and all digits. -/
def isdigit (s : List Char) : Bool :=
  !s.isEmpty && s.all Char.isDigit

/-- Decimal value of an all-digit string, Python `int(s)`. -/
def digitsToInt (s : List Char) : Int :=
  s.foldl (fun acc c => acc * 10 + (c.toNat - '0'.toNat)) 0

/-- Line 53 of the source:
`int(v) if isinstance(v, (int, str)) and str(v).isdigit() else None`
for `v = params.get('searchModeOne')`.  A Python `bool` passes the
`isinstance` test but its `str` form is never digit-like. -/
def coerce_search_mode (v : PyVal) : Option Int :=
  match v with
  | .int n => if isdigit (pyStr (.int n)) then some n else Option.none
  | .bool b => if isdigit (pyStr (.bool b)) then some (if b then 1 else 0) else Option.none
  | .str s => if isdigit s then some (digitsToInt s) else Option.none
  | _ => Option.none

/-- The `params` dict of one task, as `save_indicators_to_db` reads it
(lines 50-58). -/
structure TaskMeta where
  zcode : PyVal
  indicateName : PyVal
  searchModeOne : PyVal
  area : PyVal
  beginYear : PyVal
  endYear : PyVal
  dataType : PyVal
deriving DecidableEq, Repr

/-- One stored row of the `cnki_indicators` table (minus the autoincrement id
and timestamp, which take no part in any claim). -/
structure DBRecord where
  zcode : PyVal
  indicate_name : PyVal
  search_mode_one : Option Int
  area : PyVal
  begin_year : PyVal
  end_year : PyVal
  data_type : PyVal
  time : List Char
  region : List Char
  indicator : List Char
  value : List Char
  unit : List Char
  source : List Char
  page_no : List Char
  download_url : List Char
deriving DecidableEq, Repr

/-- The table's `UNIQUE(indicator, region, time, source, page_no,
download_url)` composite key (line 37). -/
def compositeKey (r : DBRecord) :
    List Char × List Char × List Char × List Char × List Char × List Char :=
  (r.indicator, r.region, r.time, r.source, r.page_no, r.download_url)

/-- The record built on lines 61-70: task metadata followed by the row's
fields. -/
def recordOf (params : TaskMeta) (r : IndicatorRow) : DBRecord :=
  { zcode := params.zcode
    indicate_name := params.indicateName
    search_mode_one := coerce_search_mode params.searchModeOne
    area := params.area
    begin_year := params.beginYear
    end_year := params.endYear
    data_type := params.dataType
    time := r.time
    region := r.region
    indicator := r.indicator
    value := r.value
    unit := r.unit
    source := r.source
    page_no := r.page_no
    download_url := r.download_url }

/-- `INSERT OR IGNORE` of a single record: a record whose composite key is
already present is silently skipped (`changes = 0`), otherwise it is appended
(`changes = 1`). -/
def insertOne (db : List DBRecord) (r : DBRecord) : List DBRecord × Nat :=
  if db.any fun x => compositeKey x = compositeKey r then (db, 0)
  else (db ++ [r], 1)

/-- `cursor.executemany` over the record batch; `cursor.rowcount` sums the
per-statement change counts. -/
def insertMany (db : List DBRecord) : List DBRecord → List DBRecord × Nat
  | [] => (db, 0)
  | r :: rs =>
    let (db', n) := insertOne db r
    let (db'', m) := insertMany db' rs
    (db'', n + m)

/-- The observable outcome of one `save_indicators_to_db` call: the table
contents afterwards, the function's return value (`None` on a database
error), and whether the connection was opened / closed. -/
structure SaveOutcome where
  db : List DBRecord
  ret : Option Nat
  opened : Bool
  closed : Bool
deriving DecidableEq, Repr

/-- `save_indicators_to_db(rows, params)` (lines 44-84) against a table state
`db`.  `dbError` injects a `sqlite3.Error` during `executemany`/`commit`: the
transaction is never committed (the table is unchanged), the `except` arm
prints, the `finally` closes the connection, and the function falls off the
end returning `None`.  An empty `rows` returns `0` before the connection is
even opened. -/
def save_indicators_to_db (rows : List IndicatorRow) (params : TaskMeta)
    (db : List DBRecord) (dbError : Bool) : SaveOutcome :=
  if rows.isEmpty then ⟨db, some 0, false, false⟩
  else if dbError then ⟨db, Option.none, true, true⟩
  else
    let (db', n) := insertMany db (rows.map (recordOf params))
    ⟨db', some n, true, true⟩

/-- A sequence of `save_indicators_to_db` calls against the same table (e.g.
one per task), none of them hitting a database error; returns the final table
and the per-call return values. -/
def saveBatches (params : TaskMeta) (db : List DBRecord) :
    List (List IndicatorRow) → List DBRecord × List (Option Nat)
  | [] => (db, [])
  | b :: bs =>
    let o := save_indicators_to_db b params db false
    let (db', rets) := saveBatches params o.db bs
    (db', o.ret :: rets)

/-! ### The task driver (`main`, lines 198-243) -/

/-- One task as `main` sees it: the crawl environment its URL leads to and
its `params`. -/
structure TaskEnv where
  env : CrawlEnv
  params : TaskMeta

/-- The per-task loop of `main` (lines 221-241): run the crawl inside
`try/except`; on success save the rows (guarded by `if rows:`), on any
exception print and `continue` to the next task.  Returns the final table
and, per task, the value `save_indicators_to_db` returned (`none` when the
task failed or produced no rows, in which case nothing was saved). -/
def runTasks (g : Bool) (maxpages : Nat) (db : List DBRecord) :
    List TaskEnv → List DBRecord × List (Option Nat)
  | [] => (db, [])
  | t :: ts =>
    match crawl_cnki_indicators t.env maxpages g with
    | .ok (rows, _) =>
      if rows.isEmpty then
        let (db', rets) := runTasks g maxpages db ts
        (db', Option.none :: rets)
      else
        let o := save_indicators_to_db rows t.params db false
        let (db', rets) := runTasks g maxpages o.db ts
        (db', o.ret :: rets)
    | .error _ =>
      let (db', rets) := runTasks g maxpages db ts
      (db', Option.none :: rets)

/-- Number of stored rows carrying a given composite key. -/
def countKey
    (k : List Char × List Char × List Char × List Char × List Char × List Char)
    (db : List DBRecord) : Nat :=
  (db.filter fun r => compositeKey r = k).length

/-! ### Concrete inputs used by the scenario parts of the claims -/

/-- An 8-cell row body whose 4th cell (index 3) holds `ind`. -/
def mkCells (ind : List Char) : List (List Char) :=
  [[], "2020".data, "BJ".data, ind, "1.5".data, "tons".data, "yearbook".data,
    "12".data]

/-- A well-formed candidate row: rendered, 8 cells, nonblank indicator. -/
def goodRow : RowHandle := ⟨some 10, mkCells "GDP".data, Option.none⟩

/-- What `validateRow` extracts from `goodRow`. -/
def goodRowParsed : IndicatorRow :=
  ⟨"2020".data, "BJ".data, "GDP".data, "1.5".data, "tons".data,
    "yearbook".data, "12".data, []⟩

/-- A candidate row whose bounding box has zero height. -/
def zeroHeightRow : RowHandle := ⟨some 0, mkCells "GDP".data, Option.none⟩

/-- A candidate row with only 5 cells. -/
def shortRow : RowHandle :=
  ⟨some 10, [[], "a".data, "b".data, "c".data, "d".data], Option.none⟩

/-- A candidate row whose indicator cell is whitespace-only. -/
def blankIndicatorRow : RowHandle := ⟨some 10, mkCells "   ".data, Option.none⟩

/-- Scenario A of the spec: 10 candidate rows, 2 with zero-height boxes, 1
with only 5 cells, 1 with a blank indicator cell, 6 well-formed. -/
def scenarioA : List RowHandle :=
  [goodRow, zeroHeightRow, goodRow, shortRow, goodRow, blankIndicatorRow,
    zeroHeightRow, goodRow, goodRow, goodRow]

/-- A valid row whose indicator cell holds an internal double space. -/
def doubleSpaceRow : RowHandle := ⟨some 10, mkCells "a  b".data, Option.none⟩

/-- A valid row carrying a download icon whose download event never fires
within the timeout. -/
def captureFailRow : RowHandle :=
  ⟨some 10, mkCells "GDP".data, some ⟨Option.none, true⟩⟩

/-- A valid row whose download icon's event fires with a concrete URL. -/
def captureOkRow : RowHandle :=
  ⟨some 10, mkCells "GDP".data, some ⟨some "http://dl".data, true⟩⟩

/-- `goodRowParsed` with the captured URL filled in. -/
def captureOkParsed : IndicatorRow :=
  ⟨"2020".data, "BJ".data, "GDP".data, "1.5".data, "tons".data,
    "yearbook".data, "12".data, "http://dl".data⟩

/-- Scenario B of the spec: every wait succeeds, the next-page control is
enabled when advancing to iterations 1 and 2 and disabled at iteration 3. -/
def envB : CrawlEnv :=
  { navOk := true
    hasNext := fun n => decide (n < 3)
    advanceOk := fun _ => true
    rowsAppear := fun _ => true
    pageRows := fun _ => [goodRow] }

/-- A task whose first page yields a validated row and whose page-settlement
wait times out when advancing to iteration 1. -/
def envAdvanceFail : CrawlEnv :=
  { navOk := true
    hasNext := fun _ => true
    advanceOk := fun n => decide (n ≠ 1)
    rowsAppear := fun _ => true
    pageRows := fun _ => [goodRow] }

/-- A crawl environment where every wait succeeds and the next-page control
is always enabled. -/
def envAllOk : CrawlEnv :=
  { navOk := true
    hasNext := fun _ => true
    advanceOk := fun _ => true
    rowsAppear := fun _ => true
    pageRows := fun _ => [goodRow] }

/-- A `params` dict with every key missing. -/
def defaultMeta : TaskMeta :=
  ⟨.none, .none, .none, .none, .none, .none, .none⟩

/-! ### Lemmas about the whitespace-normalization primitives -/

/-- Word lists produced by `pySplit`: nonempty, whitespace-free pieces. -/
def goodWords (ws : List (List Char)) : Prop :=
  ∀ w ∈ ws, w ≠ [] ∧ ∀ c ∈ w, pyIsSpace c = false

lemma takeWhile_all_eq {p : Char → Bool} :
    ∀ l : List Char, (∀ c ∈ l, p c = true) → l.takeWhile p = l := by
  intro l h
  induction l with
  | nil => rfl
  | cons a t ih =>
    have ha : p a = true := h a (List.mem_cons_self a t)
    simp [List.takeWhile_cons, ha, ih fun c hc => h c (List.mem_cons_of_mem a hc)]

lemma dropWhile_all_eq {p : Char → Bool} :
    ∀ l : List Char, (∀ c ∈ l, p c = true) → l.dropWhile p = [] := by
  intro l h
  induction l with
  | nil => rfl
  | cons a t ih =>
    have ha : p a = true := h a (List.mem_cons_self a t)
    simp [List.dropWhile_cons, ha, ih fun c hc => h c (List.mem_cons_of_mem a hc)]

lemma takeWhile_append_all {p : Char → Bool} :
    ∀ a b : List Char, (∀ c ∈ a, p c = true) →
      (a ++ b).takeWhile p = a ++ b.takeWhile p := by
  intro a b h
  induction a with
  | nil => simp
  | cons x t ih =>
    have hx : p x = true := h x (List.mem_cons_self x t)
    simp [List.takeWhile_cons, hx, ih fun c hc => h c (List.mem_cons_of_mem x hc)]

lemma dropWhile_append_all {p : Char → Bool} :
    ∀ a b : List Char, (∀ c ∈ a, p c = true) →
      (a ++ b).dropWhile p = b.dropWhile p := by
  intro a b h
  induction a with
  | nil => simp
  | cons x t ih =>
    have hx : p x = true := h x (List.mem_cons_self x t)
    simp [List.dropWhile_cons, hx, ih fun c hc => h c (List.mem_cons_of_mem x hc)]

lemma dropWhile_eq_self_of_head {p : Char → Bool} :
    ∀ l : List Char, (∀ c, l.head? = some c → p c = false) → l.dropWhile p = l := by
  intro l h
  cases l with
  | nil => rfl
  | cons a t => simp [List.dropWhile_cons, h a rfl]

lemma pySplit_nil : pySplit [] = [] := rfl

lemma pySplit_cons_space {c : Char} (rest : List Char) (h : pyIsSpace c = true) :
    pySplit (c :: rest) = pySplit rest := by
  simp [pySplit, pySplitAux, h]

lemma pySplitAux_acc : ∀ (l cur : List Char), cur ≠ [] →
    pySplitAux l cur =
      (cur.reverse ++ l.takeWhile notSpace) :: pySplit (l.dropWhile notSpace) := by
  intro l
  induction l with
  | nil =>
    intro cur hcur
    simp [pySplitAux, pySplit, List.isEmpty_iff, hcur]
  | cons c rest ih =>
    intro cur hcur
    cases hc : pyIsSpace c with
    | true =>
      have hns : notSpace c = false := by simp [notSpace, hc]
      simp only [pySplitAux, hc, if_true, List.isEmpty_iff, hcur, if_neg hcur,
        List.takeWhile_cons, List.dropWhile_cons, hns, Bool.false_eq_true,
        if_false, List.append_nil]
      rw [pySplit_cons_space rest hc]
      rfl
    | false =>
      have hns : notSpace c = true := by simp [notSpace, hc]
      simp only [pySplitAux, hc, Bool.false_eq_true, if_false,
        List.takeWhile_cons, List.dropWhile_cons, hns, if_true]
      rw [ih (c :: cur) (by simp)]
      simp

lemma pySplit_cons_nonspace {c : Char} (rest : List Char)
    (h : pyIsSpace c = false) :
    pySplit (c :: rest) =
      (c :: rest.takeWhile notSpace) :: pySplit (rest.dropWhile notSpace) := by
  have h1 : pySplit (c :: rest) = pySplitAux rest [c] := by
    simp [pySplit, pySplitAux, h]
  rw [h1, pySplitAux_acc rest [c] (by simp)]
  simp

/-- Every piece returned by `pySplit` is a nonempty run of non-whitespace. -/
lemma pySplitAux_sound : ∀ (l cur : List Char),
    (∀ c ∈ cur, pyIsSpace c = false) → goodWords (pySplitAux l cur) := by
  intro l
  induction l with
  | nil =>
    intro cur hcur
    by_cases h : cur.isEmpty
    · simp [pySplitAux, h, goodWords]
    · simp only [pySplitAux, h, Bool.false_eq_true, if_false]
      intro w hw
      rcases List.mem_cons.mp hw with rfl | hw
      · refine ⟨by simpa [List.isEmpty_iff] using h, ?_⟩
        intro x hx
        exact hcur x (by simpa using hx)
      · simp at hw
  | cons c rest ih =>
    intro cur hcur
    cases hc : pyIsSpace c with
    | true =>
      by_cases h : cur.isEmpty
      · simp only [pySplitAux, hc, if_true, h]
        exact ih [] (by simp)
      · simp only [pySplitAux, hc, if_true, h, Bool.false_eq_true, if_false]
        intro w hw
        rcases List.mem_cons.mp hw with rfl | hw
        · refine ⟨by simpa [List.isEmpty_iff] using h, ?_⟩
          intro x hx
          exact hcur x (by simpa using hx)
        · exact ih [] (by simp) w hw
    | false =>
      simp only [pySplitAux, hc, Bool.false_eq_true, if_false]
      refine ih (c :: cur) ?_
      intro x hx
      rcases List.mem_cons.mp hx with rfl | hx
      · exact hc
      · exact hcur x hx

lemma pySplit_sound (l : List Char) : goodWords (pySplit l) :=
  pySplitAux_sound l [] (by simp)

lemma joinSpace_ne_nil {w : List Char} (ws : List (List Char)) (hw : w ≠ []) :
    joinSpace (w :: ws) ≠ [] := by
  cases ws with
  | nil => simpa [joinSpace] using hw
  | cons w2 ws => cases w with
    | nil => exact absurd rfl hw
    | cons a t => simp [joinSpace]

/-- Splitting the single-space join of good words recovers the words. -/
lemma pySplit_joinSpace : ∀ ws : List (List Char), goodWords ws →
    pySplit (joinSpace ws) = ws := by
  intro ws
  induction ws with
  | nil => intro _; simp [joinSpace, pySplit, pySplitAux]
  | cons w ws ih =>
    intro hgood
    obtain ⟨hw, hwchars⟩ := hgood w (List.mem_cons_self w ws)
    have hgood' : goodWords ws := fun x hx => hgood x (List.mem_cons_of_mem w hx)
    cases w with
    | nil => exact absurd rfl hw
    | cons c w' =>
      have hc : pyIsSpace c = false := hwchars c (List.mem_cons_self c w')
      have hw' : ∀ x ∈ w', notSpace x = true := by
        intro x hx
        simp [notSpace, hwchars x (List.mem_cons_of_mem c hx)]
      cases ws with
      | nil =>
        simp only [joinSpace]
        rw [pySplit_cons_nonspace w' hc]
        rw [takeWhile_all_eq w' hw', dropWhile_all_eq w' hw']
        simp [pySplit, pySplitAux]
      | cons w2 ws' =>
        simp only [joinSpace, List.cons_append]
        rw [pySplit_cons_nonspace (w' ++ ' ' :: joinSpace (w2 :: ws')) hc]
        rw [takeWhile_append_all w' (' ' :: joinSpace (w2 :: ws')) hw',
            dropWhile_append_all w' (' ' :: joinSpace (w2 :: ws')) hw']
        have hsp : notSpace ' ' = false := by simp [notSpace, pyIsSpace]
        rw [List.takeWhile_cons, List.dropWhile_cons]
        simp only [hsp, Bool.false_eq_true, if_false, List.append_nil]
        rw [pySplit_cons_space (joinSpace (w2 :: ws')) (by decide)]
        rw [ih hgood']

lemma head?_joinSpace_nonspace : ∀ ws : List (List Char), goodWords ws →
    ∀ c, (joinSpace ws).head? = some c → pyIsSpace c = false := by
  intro ws hgood c hc
  cases ws with
  | nil => simp [joinSpace] at hc
  | cons w ws =>
    obtain ⟨hw, hwchars⟩ := hgood w (List.mem_cons_self w ws)
    cases w with
    | nil => exact absurd rfl hw
    | cons a t =>
      have hac : a = c := by
        cases ws with
        | nil => simpa [joinSpace] using hc
        | cons w2 ws' => simpa [joinSpace] using hc
      subst hac
      exact hwchars a (List.mem_cons_self a t)

lemma getLast?_of_mem_last : ∀ (l : List Char) (c : Char), l.getLast? = some c → c ∈ l := by
  intro l
  induction l with
  | nil => intro c hc; simp at hc
  | cons a t ih =>
    intro c hc
    cases t with
    | nil => simp_all
    | cons b t' =>
      rw [List.getLast?_cons_cons] at hc
      exact List.mem_cons_of_mem a (ih c hc)

lemma getLast?_joinSpace_nonspace : ∀ ws : List (List Char), goodWords ws →
    ∀ c, (joinSpace ws).getLast? = some c → pyIsSpace c = false := by
  intro ws
  induction ws with
  | nil => intro _ c hc; simp [joinSpace] at hc
  | cons w ws ih =>
    intro hgood c hc
    obtain ⟨hw, hwchars⟩ := hgood w (List.mem_cons_self w ws)
    have hgood' : goodWords ws := fun x hx => hgood x (List.mem_cons_of_mem w hx)
    cases ws with
    | nil =>
      simp only [joinSpace] at hc
      exact hwchars c (getLast?_of_mem_last w c hc)
    | cons w2 ws' =>
      have hJ : joinSpace (w2 :: ws') ≠ [] :=
        joinSpace_ne_nil ws' (hgood' w2 (List.mem_cons_self w2 ws')).1
      simp only [joinSpace] at hc
      rw [List.getLast?_append_of_ne_nil w (by simp)] at hc
      rw [show (' ' :: joinSpace (w2 :: ws')) = [' '] ++ joinSpace (w2 :: ws') from rfl,
          List.getLast?_append_of_ne_nil [' '] hJ] at hc
      exact ih hgood' c hc

/-- `strip` is the identity on lists whose first and last characters are not
whitespace. -/
lemma strip_eq_self_of_ends (l : List Char)
    (h1 : ∀ c, l.head? = some c → pyIsSpace c = false)
    (h2 : ∀ c, l.getLast? = some c → pyIsSpace c = false) : strip l = l := by
  unfold strip
  rw [dropWhile_eq_self_of_head l h1]
  rw [dropWhile_eq_self_of_head l.reverse (by simpa using h2)]
  exact l.reverse_reverse

lemma get_clean_text_eq (t : List Char) :
    get_clean_text t = joinSpace (pySplit t) := by
  unfold get_clean_text
  exact strip_eq_self_of_ends _
    (head?_joinSpace_nonspace _ (pySplit_sound t))
    (getLast?_joinSpace_nonspace _ (pySplit_sound t))

lemma get_clean_text_idem (t : List Char) :
    get_clean_text (get_clean_text t) = get_clean_text t := by
  rw [get_clean_text_eq t, get_clean_text_eq (joinSpace (pySplit t)),
      pySplit_joinSpace (pySplit t) (pySplit_sound t)]

/-! ### Lemmas about the row validator -/

lemma tryCapture_false (r : RowHandle) : tryCapture false r = [] := rfl

lemma validateRow_isSome_iff (g : Bool) (r : RowHandle) :
    (validateRow g r).isSome ↔
      (∃ h, r.boundingBox = some h ∧ h ≠ 0) ∧ 8 ≤ r.cells.length ∧
        strip (r.cells.getD 3 []) ≠ [] := by
  rcases hb : r.boundingBox with _ | hgt
  · simp [validateRow, hb]
  · simp only [validateRow, hb]
    by_cases h0 : hgt = 0
    · subst h0
      simp
    · rw [if_neg h0]
      by_cases hlen : r.cells.length < 8
      · rw [if_pos hlen]
        simp only [Option.isSome_none, Bool.false_eq_true, false_iff]
        intro hcontra
        exact absurd hcontra.2.1 (by omega)
      · rw [if_neg hlen]
        by_cases hstrip : strip (r.cells.getD 3 []) = []
        · rw [if_pos hstrip]
          simp only [Option.isSome_none, Bool.false_eq_true, false_iff]
          intro hcontra
          exact hcontra.2.2 hstrip
        · rw [if_neg hstrip]
          simp only [Option.isSome_some, true_iff]
          exact ⟨⟨hgt, rfl, h0⟩, by omega, hstrip⟩

lemma validateRow_some_elim (g : Bool) (r : RowHandle) (row : IndicatorRow)
    (h : validateRow g r = some row) :
    row.time = get_clean_text (r.cells.getD 1 []) ∧
    row.region = get_clean_text (r.cells.getD 2 []) ∧
    row.indicator = strip (r.cells.getD 3 []) ∧
    row.value = get_clean_text (r.cells.getD 4 []) ∧
    row.unit = get_clean_text (r.cells.getD 5 []) ∧
    row.source = get_clean_text (r.cells.getD 6 []) ∧
    row.page_no = get_clean_text (r.cells.getD 7 []) ∧
    row.download_url = tryCapture g r ∧
    strip (r.cells.getD 3 []) ≠ [] := by
  rcases hb : r.boundingBox with _ | hgt
  · simp [validateRow, hb] at h
  · simp only [validateRow, hb] at h
    by_cases h0 : hgt = 0
    · rw [if_pos h0] at h
      exact absurd h (by simp)
    · rw [if_neg h0] at h
      by_cases hlen : r.cells.length < 8
      · rw [if_pos hlen] at h
        exact absurd h (by simp)
      · rw [if_neg hlen] at h
        by_cases hstrip : strip (r.cells.getD 3 []) = []
        · rw [if_pos hstrip] at h
          exact absurd h (by simp)
        · rw [if_neg hstrip] at h
          injection h with h'
          subst h'
          exact ⟨rfl, rfl, rfl, rfl, rfl, rfl, rfl, rfl, hstrip⟩

/-- A row whose download interception has an icon but no event extracts
exactly as it does with download capture off. -/
lemma validateRow_capture_fail (r : RowHandle) (d : DownloadEnv)
    (hicon : r.excelIcon = some d) (hev : d.event = Option.none) :
    validateRow true r = validateRow false r := by
  have hcap : tryCapture true r = tryCapture false r := by
    simp [tryCapture, hicon, hev]
  unfold validateRow
  rw [hcap]

/-! ### Lemmas about the crawl loop -/

/-- The page loop never reports more collected pages than it had iterations
left. -/
lemma crawlPages_count_le (env : CrawlEnv) (g : Bool) :
    ∀ (remaining page_num : Nat) (acc rows : List IndicatorRow) (n : Nat),
      crawlPages env g remaining page_num acc = .ok (rows, n) → n ≤ remaining := by
  intro remaining
  induction remaining with
  | zero =>
    intro pn acc rows n h
    simp only [crawlPages, Except.ok.injEq, Prod.mk.injEq] at h
    omega
  | succ k ih =>
    intro pn acc rows n h
    simp only [crawlPages] at h
    by_cases hpn : pn = 0
    · rw [if_pos hpn] at h
      cases hnav : env.navOk with
      | false => rw [hnav] at h; simp at h
      | true =>
        rw [hnav] at h
        simp only [if_true] at h
        cases hrows : env.rowsAppear pn with
        | false => rw [hrows] at h; simp at h
        | true =>
          rw [hrows] at h
          simp only [if_true] at h
          cases hrec : crawlPages env g k (pn + 1)
              (acc ++ processPage g (env.pageRows pn)) with
          | ok p =>
            obtain ⟨rows', n'⟩ := p
            rw [hrec] at h
            simp only [Except.ok.injEq, Prod.mk.injEq] at h
            have := ih (pn + 1) _ rows' n' hrec
            omega
          | error e => rw [hrec] at h; simp at h
    · rw [if_neg hpn] at h
      cases hnext : env.hasNext pn with
      | false =>
        rw [hnext] at h
        simp only [Bool.false_eq_true, if_false, Except.ok.injEq,
          Prod.mk.injEq] at h
        omega
      | true =>
        rw [hnext] at h
        simp only [if_true] at h
        cases hadv : env.advanceOk pn with
        | false => rw [hadv] at h; simp at h
        | true =>
          rw [hadv] at h
          simp only [if_true] at h
          cases hrows : env.rowsAppear pn with
          | false => rw [hrows] at h; simp at h
          | true =>
            rw [hrows] at h
            simp only [if_true] at h
            cases hrec : crawlPages env g k (pn + 1)
                (acc ++ processPage g (env.pageRows pn)) with
            | ok p =>
              obtain ⟨rows', n'⟩ := p
              rw [hrec] at h
              simp only [Except.ok.injEq, Prod.mk.injEq] at h
              have := ih (pn + 1) _ rows' n' hrec
              omega
            | error e => rw [hrec] at h; simp at h

/-- Any property holding on every page's validated rows and on the
accumulator holds on everything the page loop returns. -/
lemma crawlPages_rows_of_pred (env : CrawlEnv) (g : Bool)
    (P : IndicatorRow → Prop)
    (hpage : ∀ pn, ∀ row ∈ processPage g (env.pageRows pn), P row) :
    ∀ (remaining page_num : Nat) (acc rows : List IndicatorRow) (n : Nat),
      (∀ r ∈ acc, P r) →
      crawlPages env g remaining page_num acc = .ok (rows, n) →
      ∀ r ∈ rows, P r := by
  intro remaining
  induction remaining with
  | zero =>
    intro pn acc rows n hacc h
    simp only [crawlPages, Except.ok.injEq, Prod.mk.injEq] at h
    exact h.1 ▸ hacc
  | succ k ih =>
    intro pn acc rows n hacc h
    simp only [crawlPages] at h
    have hstep : ∀ r ∈ acc ++ processPage g (env.pageRows pn), P r := by
      intro r hr
      rcases List.mem_append.mp hr with hr | hr
      · exact hacc r hr
      · exact hpage pn r hr
    by_cases hpn : pn = 0
    · rw [if_pos hpn] at h
      cases hnav : env.navOk with
      | false => rw [hnav] at h; simp at h
      | true =>
        rw [hnav] at h
        simp only [if_true] at h
        cases hrows : env.rowsAppear pn with
        | false => rw [hrows] at h; simp at h
        | true =>
          rw [hrows] at h
          simp only [if_true] at h
          cases hrec : crawlPages env g k (pn + 1)
              (acc ++ processPage g (env.pageRows pn)) with
          | ok p =>
            obtain ⟨rows', n'⟩ := p
            rw [hrec] at h
            simp only [Except.ok.injEq, Prod.mk.injEq] at h
            exact h.1 ▸ ih (pn + 1) _ rows' n' hstep hrec
          | error e => rw [hrec] at h; simp at h
    · rw [if_neg hpn] at h
      cases hnext : env.hasNext pn with
      | false =>
        rw [hnext] at h
        simp only [Bool.false_eq_true, if_false, Except.ok.injEq,
          Prod.mk.injEq] at h
        exact h.1 ▸ hacc
      | true =>
        rw [hnext] at h
        simp only [if_true] at h
        cases hadv : env.advanceOk pn with
        | false => rw [hadv] at h; simp at h
        | true =>
          rw [hadv] at h
          simp only [if_true] at h
          cases hrows : env.rowsAppear pn with
          | false => rw [hrows] at h; simp at h
          | true =>
            rw [hrows] at h
            simp only [if_true] at h
            cases hrec : crawlPages env g k (pn + 1)
                (acc ++ processPage g (env.pageRows pn)) with
            | ok p =>
              obtain ⟨rows', n'⟩ := p
              rw [hrec] at h
              simp only [Except.ok.injEq, Prod.mk.injEq] at h
              exact h.1 ▸ ih (pn + 1) _ rows' n' hstep hrec
            | error e => rw [hrec] at h; simp at h

/-- With download capture off, every validated row has an empty URL. -/
lemma processPage_false_url (rows : List RowHandle) :
    ∀ row ∈ processPage false rows, row.download_url = [] := by
  intro row hrow
  obtain ⟨r, _, hval⟩ := List.mem_filterMap.mp hrow
  have := (validateRow_some_elim false r row hval).2.2.2.2.2.2.2.1
  rw [this, tryCapture_false]

/-! ### Lemmas about the SQLite sink -/

lemma insertOne_countKey (db : List DBRecord) (r : DBRecord)
    (k : List Char × List Char × List Char × List Char × List Char × List Char) :
    countKey k (insertOne db r).1 ≤ max (countKey k db) 1 := by
  unfold insertOne
  by_cases hdup : db.any (fun x => compositeKey x = compositeKey r) = true
  · rw [if_pos hdup]
    exact le_max_left _ _
  · rw [if_neg hdup]
    simp only [countKey, List.filter_append, List.length_append]
    by_cases hk : compositeKey r = k
    · have h0 : (db.filter fun x => compositeKey x = k).length = 0 := by
        rw [List.length_eq_zero, List.filter_eq_nil_iff]
        intro a ha
        simp only [decide_eq_true_eq]
        intro hak
        exact hdup (List.any_eq_true.mpr
          ⟨a, ha, by simp [hak, hk]⟩)
      rw [h0]
      simp [hk]
    · have h1 : ([r].filter fun x => compositeKey x = k).length = 0 := by
        rw [List.length_eq_zero, List.filter_eq_nil_iff]
        intro a ha
        simp only [List.mem_singleton] at ha
        subst ha
        simp [hk]
      rw [h1]
      simp [le_max_left]

lemma insertOne_length (db : List DBRecord) (r : DBRecord) :
    (insertOne db r).1.length = db.length + (insertOne db r).2 := by
  unfold insertOne
  by_cases hdup : db.any (fun x => compositeKey x = compositeKey r) = true
  · rw [if_pos hdup]
    simp
  · rw [if_neg hdup]
    simp

lemma insertMany_countKey (rs : List DBRecord) (db : List DBRecord)
    (k : List Char × List Char × List Char × List Char × List Char × List Char) :
    countKey k (insertMany db rs).1 ≤ max (countKey k db) 1 := by
  induction rs generalizing db with
  | nil => simp only [insertMany]; exact le_max_left _ _
  | cons r rs ih =>
    simp only [insertMany]
    calc countKey k (insertMany (insertOne db r).1 rs).1
        ≤ max (countKey k (insertOne db r).1) 1 := ih (insertOne db r).1
      _ ≤ max (max (countKey k db) 1) 1 :=
          max_le_max_right 1 (insertOne_countKey db r k)
      _ = max (countKey k db) 1 := by rw [max_assoc, max_self]

lemma insertMany_length (rs : List DBRecord) (db : List DBRecord) :
    (insertMany db rs).1.length = db.length + (insertMany db rs).2 := by
  induction rs generalizing db with
  | nil => simp [insertMany]
  | cons r rs ih =>
    simp only [insertMany]
    rw [ih (insertOne db r).1, insertOne_length db r]
    omega

lemma save_ret_reports_inserted (rows : List IndicatorRow) (params : TaskMeta)
    (db : List DBRecord) :
    ∃ n, (save_indicators_to_db rows params db false).ret = some n ∧
      (save_indicators_to_db rows params db false).db.length = db.length + n := by
  unfold save_indicators_to_db
  by_cases hrows : rows.isEmpty
  · rw [if_pos hrows]
    exact ⟨0, rfl, by simp⟩
  · rw [if_neg hrows]
    simp only [Bool.false_eq_true, if_false]
    exact ⟨(insertMany db (rows.map (recordOf params))).2, rfl,
      insertMany_length _ db⟩

lemma save_countKey (rows : List IndicatorRow) (params : TaskMeta)
    (db : List DBRecord)
    (k : List Char × List Char × List Char × List Char × List Char × List Char) :
    countKey k (save_indicators_to_db rows params db false).db ≤
      max (countKey k db) 1 := by
  unfold save_indicators_to_db
  by_cases hrows : rows.isEmpty
  · rw [if_pos hrows]
    exact le_max_left _ _
  · rw [if_neg hrows]
    simp only [Bool.false_eq_true, if_false]
    exact insertMany_countKey _ db k

lemma saveBatches_countKey (batches : List (List IndicatorRow))
    (params : TaskMeta) (db : List DBRecord)
    (k : List Char × List Char × List Char × List Char × List Char × List Char) :
    countKey k (saveBatches params db batches).1 ≤ max (countKey k db) 1 := by
  induction batches generalizing db with
  | nil => simp only [saveBatches]; exact le_max_left _ _
  | cons b bs ih =>
    simp only [saveBatches]
    calc countKey k (saveBatches params (save_indicators_to_db b params db false).db bs).1
        ≤ max (countKey k (save_indicators_to_db b params db false).db) 1 := ih _
      _ ≤ max (max (countKey k db) 1) 1 :=
          max_le_max_right 1 (save_countKey b params db k)
      _ = max (countKey k db) 1 := by rw [max_assoc, max_self]

lemma saveBatches_rets_some (batches : List (List IndicatorRow))
    (params : TaskMeta) (db : List DBRecord) :
    ∀ ret ∈ (saveBatches params db batches).2, ∃ n, ret = some n := by
  induction batches generalizing db with
  | nil => simp [saveBatches]
  | cons b bs ih =>
    simp only [saveBatches]
    intro ret hret
    rcases List.mem_cons.mp hret with rfl | hret
    · obtain ⟨n, hn, _⟩ := save_ret_reports_inserted b params db
      exact ⟨n, hn⟩
    · exact ih _ ret hret

/-! ## The claims -/

/-- C1: for every page's candidate row handles, the Row Validator excludes
exactly those rows with no bounding box or zero height, or fewer than 8
cells, or a whitespace-only 4th cell, and constructs an `IndicatorRow` for
every other row; on a page with 10 candidates of which 2 have zero-height
boxes, 1 has only 5 cells and 1 has empty indicator text, exactly 6 rows are
produced. -/
theorem C1_row_validator_filter :
    (∀ (g : Bool) (r : RowHandle),
        (validateRow g r).isSome ↔
          (∃ h, r.boundingBox = some h ∧ h ≠ 0) ∧ 8 ≤ r.cells.length ∧
            strip (r.cells.getD 3 []) ≠ [])
      ∧ (processPage false scenarioA).length = 6 :=
  ⟨validateRow_isSome_iff, by decide⟩

/-- C1 witness: the inclusion test applied at a concrete well-formed row. -/
theorem C1_witness : (validateRow false goodRow).isSome = true :=
  (C1_row_validator_filter.1 false goodRow).mpr
    ⟨⟨10, rfl, by decide⟩, by decide, by decide⟩

/-- C2 counterexample: on a task whose first page yields a validated row and
whose advance to page 2 times out, the crawl raises (carrying no rows) and
the driver persists nothing for the task — the partially collected rows are
lost, contradicting the claim that they are kept. -/
theorem C2_counterexample :
    crawl_cnki_indicators envAdvanceFail 2 false = .error (.advanceTimeout 1)
      ∧ processPage false (envAdvanceFail.pageRows 0) = [goodRowParsed]
      ∧ runTasks false 2 [] [⟨envAdvanceFail, defaultMeta⟩] =
          ([], [Option.none]) :=
  ⟨rfl, by decide, rfl⟩

/-- C2 (amended): when a fatal-for-task error occurs during the crawl, the
exception propagates without the rows collected on earlier pages — they are
discarded and nothing is persisted for that task — and the driver proceeds to
the next task, whose processing is unaffected. -/
theorem C2_fatal_error_discards_rows (g : Bool) (m : Nat)
    (db : List DBRecord) (t : TaskEnv) (ts : List TaskEnv) (e : CrawlError)
    (herr : crawl_cnki_indicators t.env m g = .error e) :
    runTasks g m db (t :: ts) =
      ((runTasks g m db ts).1, Option.none :: (runTasks g m db ts).2) := by
  simp only [runTasks, herr]

/-- C2 witness: the amended behaviour at the concrete failing task. -/
theorem C2_witness :
    crawl_cnki_indicators envAdvanceFail 2 false = .error (.advanceTimeout 1)
      ∧ runTasks false 2 [] [⟨envAdvanceFail, defaultMeta⟩] =
          ((runTasks false 2 [] []).1,
            Option.none :: (runTasks false 2 [] []).2) :=
  ⟨rfl, C2_fatal_error_discards_rows false 2 [] ⟨envAdvanceFail, defaultMeta⟩
    [] (.advanceTimeout 1) rfl⟩

/-- C3 counterexample: a validated row whose indicator cell reads `"a  b"`
keeps the internal double space — the indicator field is only stripped, not
whitespace-collapsed as the claim states for all seven fields. -/
theorem C3_counterexample :
    validateRow false doubleSpaceRow =
        some { goodRowParsed with indicator := "a  b".data }
      ∧ get_clean_text "a  b".data = "a b".data
      ∧ "a  b".data ≠ "a b".data :=
  ⟨by decide, by decide, by decide⟩

/-- C3 (amended): for every constructed `IndicatorRow`, the six fields other
than the indicator (time, region, value, unit, source, pageNo) have
whitespace runs collapsed and ends trimmed (they are fixed points of the
normalizer); the indicator is only trimmed of leading/trailing whitespace —
internal runs are preserved — and is non-empty. -/
theorem C3_field_normalization (g : Bool) (r : RowHandle)
    (row : IndicatorRow) (h : validateRow g r = some row) :
    row.time = get_clean_text (r.cells.getD 1 []) ∧
    row.region = get_clean_text (r.cells.getD 2 []) ∧
    row.value = get_clean_text (r.cells.getD 4 []) ∧
    row.unit = get_clean_text (r.cells.getD 5 []) ∧
    row.source = get_clean_text (r.cells.getD 6 []) ∧
    row.page_no = get_clean_text (r.cells.getD 7 []) ∧
    get_clean_text row.time = row.time ∧
    get_clean_text row.region = row.region ∧
    get_clean_text row.value = row.value ∧
    get_clean_text row.unit = row.unit ∧
    get_clean_text row.source = row.source ∧
    get_clean_text row.page_no = row.page_no ∧
    row.indicator = strip (r.cells.getD 3 []) ∧
    row.indicator ≠ [] := by
  obtain ⟨h1, h2, h3, h4, h5, h6, h7, _, h9⟩ := validateRow_some_elim g r row h
  refine ⟨h1, h2, h4, h5, h6, h7, ?_, ?_, ?_, ?_, ?_, ?_, h3, ?_⟩
  · rw [h1, get_clean_text_idem]
  · rw [h2, get_clean_text_idem]
  · rw [h4, get_clean_text_idem]
  · rw [h5, get_clean_text_idem]
  · rw [h6, get_clean_text_idem]
  · rw [h7, get_clean_text_idem]
  · rw [h3]; exact h9

/-- C3 witness: the amended normalization facts at a concrete row. -/
theorem C3_witness :
    validateRow false goodRow = some goodRowParsed ∧
      goodRowParsed.time = get_clean_text (goodRow.cells.getD 1 []) :=
  ⟨by decide, (C3_field_normalization false goodRow goodRowParsed (by decide)).1⟩

/-- C4: the page loop performs at most `maxpages` iterations whatever the
next-page control reports, and with `maxpages = 5` and the control disabled
after page 3 the crawl returns the three pages' rows having collected exactly
3 pages. -/
theorem C4_page_budget :
    (∀ (env : CrawlEnv) (g : Bool) (m : Nat) (rows : List IndicatorRow)
        (n : Nat), crawl_cnki_indicators env m g = .ok (rows, n) → n ≤ m)
      ∧ crawl_cnki_indicators envB 5 false =
          .ok ([goodRowParsed, goodRowParsed, goodRowParsed], 3) :=
  ⟨fun env g m rows n h => crawlPages_count_le env g m 0 [] rows n h, rfl⟩

/-- C4 witness: the page bound discharged at a concrete environment whose
next-page control never reports disabled. -/
theorem C4_witness :
    crawl_cnki_indicators envAllOk 2 false =
        .ok ([goodRowParsed, goodRowParsed], 2) ∧ 2 ≤ 2 :=
  ⟨rfl, C4_page_budget.1 envAllOk false 2 [goodRowParsed, goodRowParsed] 2 rfl⟩

/-- C5: the sink deduplicates on the composite key (indicator, region, time,
source, pageNo, downloadUrl): across any number of save calls a key's stored
count rises to at most 1, duplicates never raise an error (every call returns
a count), and each call reports exactly the number of rows newly inserted;
saving `[A]` then `[A, B]` reports 1 then 1. -/
theorem C5_dedup_on_composite_key (params : TaskMeta) (db : List DBRecord)
    (batches : List (List IndicatorRow)) :
    (∀ k, countKey k (saveBatches params db batches).1 ≤
        max (countKey k db) 1)
      ∧ (∀ ret ∈ (saveBatches params db batches).2, ∃ n, ret = some n)
      ∧ (∀ (rows : List IndicatorRow) (db0 : List DBRecord),
          ∃ n, (save_indicators_to_db rows params db0 false).ret = some n ∧
            (save_indicators_to_db rows params db0 false).db.length =
              db0.length + n)
      ∧ (saveBatches defaultMeta []
            [[goodRowParsed], [goodRowParsed, captureOkParsed]]).2 =
          [some 1, some 1] :=
  ⟨fun k => saveBatches_countKey batches params db k,
   saveBatches_rets_some batches params db,
   fun rows db0 => save_ret_reports_inserted rows params db0,
   rfl⟩

/-- C5 witness: the dedup bound applied at a concrete duplicate insertion. -/
theorem C5_witness :
    countKey (compositeKey (recordOf defaultMeta goodRowParsed))
        (saveBatches defaultMeta [] [[goodRowParsed], [goodRowParsed]]).1 ≤
      max (countKey (compositeKey (recordOf defaultMeta goodRowParsed)) []) 1 :=
  (C5_dedup_on_composite_key defaultMeta []
    [[goodRowParsed], [goodRowParsed]]).1
    (compositeKey (recordOf defaultMeta goodRowParsed))

/-- C6: a download-capture failure (the event never fires within the
timeout) is non-fatal: the row extracts exactly as with capture off, its
download URL is empty, and the page's processing of the surrounding rows is
unaffected. -/
theorem C6_capture_failure_nonfatal (r : RowHandle) (d : DownloadEnv)
    (hicon : r.excelIcon = some d) (hev : d.event = Option.none) :
    validateRow true r = validateRow false r ∧
      (∀ row, validateRow true r = some row → row.download_url = []) ∧
      ∀ (pre post : List RowHandle),
        processPage true (pre ++ r :: post) =
          processPage true pre ++ (validateRow true r).toList ++
            processPage true post := by
  refine ⟨validateRow_capture_fail r d hicon hev, ?_, ?_⟩
  · intro row hrow
    have hurl := (validateRow_some_elim true r row hrow).2.2.2.2.2.2.2.1
    rw [hurl]
    simp [tryCapture, hicon, hev]
  · intro pre post
    simp only [processPage, List.filterMap_append, List.filterMap_cons]
    cases validateRow true r with
    | none => simp
    | some row => simp

/-- C6 witness: the non-fatal capture failure at a concrete row. -/
theorem C6_witness :
    validateRow true captureFailRow = validateRow false captureFailRow :=
  (C6_capture_failure_nonfatal captureFailRow ⟨Option.none, true⟩ rfl rfl).1

/-- C7: the text normalizer (collapse internal whitespace runs to single
spaces, then trim) is idempotent. -/
theorem C7_normalize_idempotent (s : List Char) :
    get_clean_text (get_clean_text s) = get_clean_text s :=
  get_clean_text_idem s

/-- C8: every returned row's download URL is empty unless a download event
was captured for it (a non-empty URL implies capture was on, the row had an
icon and its event fired with that URL); with capture off every row of a
crawl has an empty URL; and a captured event's URL does land in the row. -/
theorem C8_download_url_guard :
    (∀ (env : CrawlEnv) (m : Nat) (rows : List IndicatorRow) (n : Nat),
        crawl_cnki_indicators env m false = .ok (rows, n) →
        ∀ row ∈ rows, row.download_url = [])
      ∧ (∀ (g : Bool) (r : RowHandle) (row : IndicatorRow),
          validateRow g r = some row →
          row.download_url = [] ∨
            (g = true ∧ ∃ d, r.excelIcon = some d ∧
              d.event = some row.download_url))
      ∧ validateRow true captureOkRow = some captureOkParsed := by
  refine ⟨?_, ?_, by decide⟩
  · intro env m rows n h row hrow
    exact crawlPages_rows_of_pred env false (fun row => row.download_url = [])
      (fun pn => processPage_false_url (env.pageRows pn)) m 0 [] rows n
      (by intro x hx; simp at hx) h row hrow
  · intro g r row hrow
    have hurl := (validateRow_some_elim g r row hrow).2.2.2.2.2.2.2.1
    cases g with
    | false => exact Or.inl (by rw [hurl, tryCapture_false])
    | true =>
      rcases hicon : r.excelIcon with _ | d
      · refine Or.inl ?_
        rw [hurl]
        simp [tryCapture, hicon]
      · rcases hev : d.event with _ | u
        · refine Or.inl ?_
          rw [hurl]
          simp [tryCapture, hicon, hev]
        · have hu : row.download_url = u := by
            rw [hurl]
            simp [tryCapture, hicon, hev]
          exact Or.inr ⟨rfl, d, rfl, by rw [hu, hev]⟩

/-- C8 witness: the empty-URL guarantee of a capture-off crawl at a concrete
environment. -/
theorem C8_witness :
    crawl_cnki_indicators envAllOk 1 false = .ok ([goodRowParsed], 1) ∧
      goodRowParsed.download_url = [] :=
  ⟨rfl, C8_download_url_guard.1 envAllOk 1 [goodRowParsed] 1 rfl
    goodRowParsed (by simp)⟩

/-- C9: the search-mode parameter is stored as an integer exactly when it is
an int or a string whose string form is digit-like, and as absent metadata
otherwise; the save operation always returns a count whatever the value; the
concrete cases `"12"`, `"abc"`, `-3` and a non-int/str value behave
accordingly. -/
theorem C9_search_mode_best_effort :
    (∀ v : PyVal, (coerce_search_mode v).isSome ↔
        ((∃ n, v = .int n ∧ isdigit (pyStr v)) ∨
          (∃ s, v = .str s ∧ isdigit s)))
      ∧ (∀ (rows : List IndicatorRow) (params : TaskMeta)
          (db : List DBRecord),
          ∃ n, (save_indicators_to_db rows params db false).ret = some n)
      ∧ coerce_search_mode (.str "12".data) = some 12
      ∧ coerce_search_mode (.str "abc".data) = Option.none
      ∧ coerce_search_mode (.int (-3)) = Option.none
      ∧ coerce_search_mode .other = Option.none := by
  refine ⟨?_, ?_, by decide, by decide, by decide, by decide⟩
  · intro v
    cases v with
    | none => simp [coerce_search_mode]
    | other => simp [coerce_search_mode]
    | bool b =>
      cases b with
      | false => simp [coerce_search_mode, pyStr, isdigit]
      | true => simp [coerce_search_mode, pyStr, isdigit]
    | int n =>
      by_cases h : isdigit (pyStr (.int n)) = true
      · simp [coerce_search_mode, h]
      · simp only [coerce_search_mode, h, Bool.false_eq_true, if_false]
        simp [h]
    | str s =>
      by_cases h : isdigit s = true
      · simp [coerce_search_mode, h, pyStr]
      · simp only [coerce_search_mode, h, Bool.false_eq_true, if_false]
        simp [h, pyStr]
  · intro rows params db
    obtain ⟨n, hn, _⟩ := save_ret_reports_inserted rows params db
    exact ⟨n, hn⟩

/-- C9 witness: the coercion test applied at a concrete digit-like string. -/
theorem C9_witness :
    (coerce_search_mode (.str "7".data)).isSome = true :=
  (C9_search_mode_best_effort.1 (.str "7".data)).mpr
    (Or.inr ⟨"7".data, rfl, by decide⟩)

/-- C10: saving an empty row sequence returns 0 without ever opening the
database connection; a database error during insert makes the operation
return no count (`None`), with the connection closed and the table
unchanged. -/
theorem C10_save_edge_cases :
    (∀ (params : TaskMeta) (db : List DBRecord) (e : Bool),
        save_indicators_to_db [] params db e = ⟨db, some 0, false, false⟩)
      ∧ ∀ (rows : List IndicatorRow) (params : TaskMeta)
          (db : List DBRecord), rows.isEmpty = false →
          save_indicators_to_db rows params db true =
            ⟨db, Option.none, true, true⟩ := by
  constructor
  · intro params db e
    rfl
  · intro rows params db hrows
    unfold save_indicators_to_db
    rw [hrows]
    simp

/-- C10 witness: the database-error path at a concrete nonempty batch. -/
theorem C10_witness :
    save_indicators_to_db [goodRowParsed] defaultMeta [] true =
      ⟨[], Option.none, true, true⟩ :=
  C10_save_edge_cases.2 [goodRowParsed] defaultMeta [] rfl

end Cnki
